import Mathlib

/-!
Verification development for the user-management backend
(`src/frontend/backend/user/user.ts`): invite-gated registration,
challenge-response wallet linking, and bulk user existence checks.

The persistent store (Prisma) is modelled as an explicit `DB` value, and the
external collaborators (Privy identity provider, viem signature verifier,
the clock, and the best-effort social-profile side effects) as an `Env`
record of oracle functions.  Each backend operation becomes a pure function
`Env → DB → ... → DB × Except Err α` returning the post-state and the
`{data}` / `{error}` result.
-/

namespace BuidlerFi

/-- Error kinds, mirroring the members of `ERRORS` that `user.ts` returns.
`RECORD_NOT_FOUND` models the exception thrown by Prisma's
`findUniqueOrThrow` / `findFirstOrThrow` (a hard failure, not an `ERRORS`
constant). -/
inductive Err where
  | UNAUTHORIZED
  | USER_ALREADY_EXISTS
  | WALLET_MISSING
  | INVALID_INVITE_CODE
  | CODE_ALREADY_USED
  | CHALLENGE_EXPIRED
  | INVALID_SIGNATURE
  | USER_NOT_FOUND
  | NO_SOCIAL_PROFILE_FOUND
  | RECORD_NOT_FOUND
deriving DecidableEq, Repr

/-- A linked account in the Privy identity provider's response
(`privyUser.linkedAccounts` entries). -/
structure LinkedAccount where
  type : String
  walletClientType : String
  connectorType : String
  address : String
deriving DecidableEq, Repr

/-- The identity provider's record for a user (`privyClient.getUser`). -/
structure PrivyUser where
  id : String
  linkedAccounts : List LinkedAccount
deriving DecidableEq, Repr

/-- A `User` row. -/
structure User where
  id : Nat
  privyUserId : String
  wallet : String
  socialWallet : Option String
  invitedById : Option Nat
  isActive : Bool
  hasFinishedOnboarding : Bool
  displayName : Option String
deriving DecidableEq, Repr

/-- An `InviteCode` row. -/
structure InviteCode where
  id : Nat
  code : String
  isActive : Bool
  used : Nat
  maxUses : Nat
deriving DecidableEq, Repr

/-- A `SigningChallenge` row.  `updatedAt` is an epoch-millisecond
timestamp. -/
structure SigningChallenge where
  userId : Nat
  message : String
  publicKey : String
  updatedAt : Int
deriving DecidableEq, Repr

/-- The persistent store: the tables `user.ts` touches, plus the id counter
for `User` rows. -/
structure DB where
  users : List User
  inviteCodes : List InviteCode
  challenges : List SigningChallenge
  nextUserId : Nat
deriving DecidableEq, Repr

/-- External collaborators: `privyClient.getUser`,
`viemClient.verifyMessage address message signature`, `Date.now()` /
`new Date()`, and the downstream side effects `updateUserSocialProfiles`
and `updateRecommendations` (whose outcome is success or a thrown error). -/
structure Env where
  getPrivyUser : String → Option PrivyUser
  verifyMessage : String → String → String → Bool
  now : Int
  updateUserSocialProfiles : Nat → String → Except String Unit
  updateRecommendations : String → Except String Unit

/-- JS `String.prototype.toLowerCase()`, modelled character-wise over the
string's characters (the repository applies it to hex wallet addresses,
which are ASCII). -/
def jsToLower (s : String) : String :=
  ⟨s.data.map Char.toLower⟩

/-- JS `String.prototype.trim()`: strip leading and trailing whitespace. -/
def jsTrim (s : String) : String :=
  ⟨((s.data.dropWhile Char.isWhitespace).reverse.dropWhile Char.isWhitespace).reverse⟩

/-- `date-fns` `differenceInMinutes` truncates the millisecond difference
toward zero; `Math.abs` of it therefore equals `Nat` (floor) division of
the absolute millisecond difference by 60000. -/
def absDifferenceInMinutes (a b : Int) : Nat :=
  (a - b).natAbs / 60000

/-- The predicate selecting the embedded wallet among linked accounts
(line 100-102 of `user.ts`). -/
def isEmbeddedWallet (a : LinkedAccount) : Bool :=
  a.type == "wallet" && a.walletClientType == "privy" && a.connectorType == "embedded"

/-- `createUser(privyUserId, inviteCode)` (lines 87-140 of `user.ts`).
The Prisma `$transaction` of lines 119-137 becomes a single atomic update
of the `DB` value. -/
def createUser (env : Env) (db : DB) (privyUserId inviteCode : String) :
    DB × Except Err User :=
  let code := jsTrim inviteCode
  match env.getPrivyUser privyUserId with
  | none => (db, Except.error Err.UNAUTHORIZED)
  | some privyUser =>
    match db.users.find? (fun u => u.privyUserId == privyUserId) with
    | some _ => (db, Except.error Err.USER_ALREADY_EXISTS)
    | none =>
      match privyUser.linkedAccounts.find? isEmbeddedWallet with
      | none => (db, Except.error Err.WALLET_MISSING)
      | some embeddedWallet =>
        let address := jsToLower embeddedWallet.address
        match db.inviteCodes.find? (fun c => c.code == code) with
        | none => (db, Except.error Err.INVALID_INVITE_CODE)
        | some existingCode =>
          if existingCode.isActive = false then
            (db, Except.error Err.INVALID_INVITE_CODE)
          else if existingCode.used ≥ existingCode.maxUses then
            (db, Except.error Err.CODE_ALREADY_USED)
          else
            let newUser : User :=
              { id := db.nextUserId
                privyUserId := privyUser.id
                wallet := address
                socialWallet := none
                invitedById := some existingCode.id
                isActive := true
                hasFinishedOnboarding := false
                displayName := none }
            ({ db with
                users := db.users ++ [newUser]
                inviteCodes := db.inviteCodes.map fun c =>
                  if c.id = existingCode.id then { c with used := c.used + 1 } else c
                nextUserId := db.nextUserId + 1 },
              Except.ok newUser)

/-- The `try { await updateUserSocialProfiles(...); updateRecommendations(...) }
catch (err) { console.error(...) }` block of lines 181-186: a failure of
either side effect is caught and logged (the second is not even awaited),
so the block's outcome is always discarded. -/
def linkSideEffects (env : Env) (userId : Nat) (addr : String) : Unit :=
  match env.updateUserSocialProfiles userId addr with
  | Except.error _ => ()
  | Except.ok _ =>
    match env.updateRecommendations addr with
    | _ => ()

/-- `linkNewWallet(privyUserId, signedMessage)` (lines 142-189 of
`user.ts`).  The Prisma `$transaction` of lines 165-179 (challenge delete
plus social-wallet update) becomes a single atomic update of the `DB`
value; `findUniqueOrThrow` / `findFirstOrThrow` throws become
`RECORD_NOT_FOUND` errors. -/
def linkNewWallet (env : Env) (db : DB) (privyUserId signedMessage : String) :
    DB × Except Err User :=
  match db.users.find? (fun u => u.privyUserId == privyUserId) with
  | none => (db, Except.error Err.RECORD_NOT_FOUND)
  | some existingUser =>
    match db.challenges.find? (fun c => c.userId == existingUser.id) with
    | none => (db, Except.error Err.RECORD_NOT_FOUND)
    | some challenge =>
      if 15 < absDifferenceInMinutes env.now challenge.updatedAt then
        (db, Except.error Err.CHALLENGE_EXPIRED)
      else if env.verifyMessage challenge.publicKey challenge.message signedMessage = false then
        (db, Except.error Err.INVALID_SIGNATURE)
      else
        let linked : User := { existingUser with socialWallet := some (jsToLower challenge.publicKey) }
        let db' : DB :=
          { db with
              challenges := db.challenges.filter fun c => !(c.userId == existingUser.id)
              users := db.users.map fun u =>
                if u.id = existingUser.id then { u with socialWallet := some (jsToLower challenge.publicKey) } else u }
        let _ := linkSideEffects env linked.id (jsToLower challenge.publicKey)
        (db', Except.ok linked)

/-- The challenge message template literal of lines 239-243: embeds
`Date.now()` and the caller-supplied `publicKey` verbatim. -/
def challengeMessage (now : Int) (publicKey : String) : String :=
  "\nI\x27m verifying the ownership of this wallet for builderfi.\nTimestamp: " ++
    toString now ++ "\nWallet: " ++ publicKey ++ "\n  "

/-- `generateChallenge(privyUserId, publicKey)` (lines 232-261 of
`user.ts`).  The `signingChallenge.upsert` keyed on the unique `userId`
either overwrites the existing row's `message` and `publicKey` or creates
a new row.  Modelled from the spec: the Prisma schema is not under `src/`;
per the spec, `SigningChallenge.userId` is unique (at most one challenge
per user) and the row carries a last-updated timestamp that Prisma
refreshes on every update (`@updatedAt`), so both upsert branches set
`updatedAt` to the current time. -/
def generateChallenge (env : Env) (db : DB) (privyUserId publicKey : String) :
    DB × Except Err SigningChallenge :=
  match db.users.find? (fun u => u.privyUserId == privyUserId) with
  | none => (db, Except.error Err.RECORD_NOT_FOUND)
  | some user =>
    let msg := challengeMessage env.now publicKey
    match db.challenges.find? (fun c => c.userId == user.id) with
    | some _ =>
      let updated : SigningChallenge :=
        { userId := user.id, message := msg, publicKey := publicKey, updatedAt := env.now }
      ({ db with
          challenges := db.challenges.map fun c =>
            if c.userId = user.id then updated else c },
        Except.ok updated)
    | none =>
      let created : SigningChallenge :=
        { userId := user.id, message := msg, publicKey := publicKey, updatedAt := env.now }
      ({ db with challenges := db.challenges ++ [created] }, Except.ok created)

/-- `checkUsersExist(wallets)` (lines 59-69 of `user.ts`): lower-case every
input wallet, return the users whose `socialWallet` is among them. -/
def checkUsersExist (db : DB) (wallets : List String) : List User :=
  let addresses := wallets.map (fun w => jsToLower w)
  db.users.filter fun u =>
    match u.socialWallet with
    | some sw => addresses.contains sw
    | none => false

/-- Observable projection: the `used` counters of all invite-code rows with
a given id (a singleton list when ids are unique). -/
def codeUses (db : DB) (i : Nat) : List Nat :=
  (db.inviteCodes.filter fun c => c.id == i).map fun c => c.used

/-- Observable projection: the challenge rows belonging to a given user. -/
def challengesFor (db : DB) (uid : Nat) : List SigningChallenge :=
  db.challenges.filter fun c => c.userId == uid

deriving instance DecidableEq for Except

/-! Concrete sample data, used to instantiate the theorems below. -/

/-- A non-embedded linked account (externally connected wallet). -/
def acctExternal : LinkedAccount :=
  { type := "wallet", walletClientType := "metamask", connectorType := "injected",
    address := "0xFFFF" }

/-- An embedded Privy wallet account with a mixed-case address. -/
def acctEmbedded : LinkedAccount :=
  { type := "wallet", walletClientType := "privy", connectorType := "embedded",
    address := "0xAbCd" }

/-- A Privy user owning an embedded wallet. -/
def privyAlice : PrivyUser :=
  { id := "did:privy:alice", linkedAccounts := [acctExternal, acctEmbedded] }

/-- A Privy user with no embedded wallet. -/
def privyBob : PrivyUser :=
  { id := "did:privy:bob", linkedAccounts := [acctExternal] }

/-- An active invite code with one use left. -/
def codeOpen : InviteCode :=
  { id := 7, code := "ABC123", isActive := true, used := 0, maxUses := 1 }

/-- An active invite code whose counter has reached its cap. -/
def codeFull : InviteCode :=
  { id := 8, code := "FULL", isActive := true, used := 1, maxUses := 1 }

/-- An inactive invite code. -/
def codeOff : InviteCode :=
  { id := 9, code := "OFF", isActive := false, used := 0, maxUses := 5 }

/-- A registered user row. -/
def userAlice : User :=
  { id := 1, privyUserId := "did:privy:alice", wallet := "0xaaaa",
    socialWallet := none, invitedById := some 7, isActive := true,
    hasFinishedOnboarding := false, displayName := none }

/-- A pending challenge for `userAlice` with a mixed-case candidate key,
last updated at epoch millisecond 0. -/
def challAlice : SigningChallenge :=
  { userId := 1, message := "challenge text", publicKey := "0xBBB", updatedAt := 0 }

/-- Store with no users and the three invite codes. -/
def dbReg : DB :=
  { users := [], inviteCodes := [codeOpen, codeFull, codeOff], challenges := [],
    nextUserId := 1 }

/-- Store where `userAlice` is already registered. -/
def dbAlice : DB :=
  { users := [userAlice], inviteCodes := [codeOpen, codeFull, codeOff],
    challenges := [], nextUserId := 2 }

/-- Store where `userAlice` has the pending challenge `challAlice`. -/
def dbLink : DB :=
  { users := [userAlice], inviteCodes := [], challenges := [challAlice],
    nextUserId := 2 }

/-- Identity oracle resolving Alice and Bob. -/
def lookupPrivy : String → Option PrivyUser :=
  fun s =>
    if s == "did:privy:alice" then some privyAlice
    else if s == "did:privy:bob" then some privyBob
    else none

/-- Baseline environment: both sample identities resolve, every signature
verifies, clock at 0, side effects succeed. -/
def envBase : Env :=
  { getPrivyUser := lookupPrivy
    verifyMessage := fun _ _ _ => true
    now := 0
    updateUserSocialProfiles := fun _ _ => Except.ok ()
    updateRecommendations := fun _ => Except.ok () }

/-- Clock 60000 ms (1 minute) after `challAlice` was issued; signatures
verify. -/
def envFresh : Env := { envBase with now := 60000 }

/-- Clock 1 minute after issuance, but no signature verifies. -/
def envBadSig : Env := { envFresh with verifyMessage := fun _ _ _ => false }

/-- Clock 1000000 ms (16 full minutes) after issuance. -/
def envLate : Env := { envBase with now := 1000000 }

/-- Clock 930000 ms (15 minutes 30 seconds) after issuance. -/
def envBoundary : Env := { envBase with now := 930000 }

/-- Fresh clock; the profile side effect throws. -/
def envSideFail : Env :=
  { envFresh with updateUserSocialProfiles := fun _ _ => Except.error "boom" }

/-- Fresh clock; the verifier accepts only the lower-cased form of
`challAlice`'s stored candidate key. -/
def envLowerOnly : Env :=
  { envFresh with verifyMessage := fun addr _ _ => addr == "0xbbb" }

/-- Store for the existence-check example: two users with social wallets,
one without. -/
def dbSocial : DB :=
  { users :=
      [ { userAlice with
            id := 1
            privyUserId := "p1"
            wallet := "0x01"
            socialWallet := some "0xaaa" },
        { userAlice with
            id := 2
            privyUserId := "p2"
            wallet := "0x02"
            socialWallet := some "0xbbb" },
        { userAlice with
            id := 3
            privyUserId := "p3"
            wallet := "0x03"
            socialWallet := none } ]
    inviteCodes := []
    challenges := []
    nextUserId := 4 }

/-!
Shared helper lemmas about the list-level store operations.
-/


theorem eq_of_mem_pairwise_key {α : Type} (key : α → Nat) {l : List α}
    (hp : l.Pairwise fun a b => key a ≠ key b) {a b : α}
    (ha : a ∈ l) (hb : b ∈ l) (hk : key a = key b) : a = b := by
  induction l with
  | nil => cases ha
  | cons c l ih =>
    rcases List.pairwise_cons.mp hp with ⟨hc, hl⟩
    rcases List.mem_cons.mp ha with ha0 | ha1 <;>
      rcases List.mem_cons.mp hb with hb0 | hb1
    · rw [ha0, hb0]
    · exact absurd hk (ha0 ▸ hc b hb1)
    · exact absurd hk.symm (hb0 ▸ hc a ha1)
    · exact ih hl ha1 hb1

theorem codeUses_bump (l : List InviteCode) (i : Nat) :
    ((l.map fun k => if k.id = i then { k with used := k.used + 1 } else k).filter
        fun k => k.id == i).map (fun k => k.used)
      = ((l.filter fun k => k.id == i).map fun k => k.used).map (fun n => n + 1) := by
  induction l with
  | nil => rfl
  | cons a l ih =>
    by_cases hai : a.id = i
    · simp [hai, ih]
    · simp [hai, ih]

theorem codeUses_bump_ne (l : List InviteCode) (i j : Nat) (hne : j ≠ i) :
    ((l.map fun k => if k.id = i then { k with used := k.used + 1 } else k).filter
        fun k => k.id == j).map (fun k => k.used)
      = (l.filter fun k => k.id == j).map fun k => k.used := by
  induction l with
  | nil => rfl
  | cons a l ih =>
    by_cases hai : a.id = i <;> by_cases haj : a.id = j <;>
      simp_all



theorem linkNewWallet_ok_aux (env : Env) (db : DB) (pid sig : String)
    (eu : User) (ch : SigningChallenge)
    (hu : db.users.find? (fun u => u.privyUserId == pid) = some eu)
    (hc : db.challenges.find? (fun c => c.userId == eu.id) = some ch)
    (hfresh : ¬ 15 < absDifferenceInMinutes env.now ch.updatedAt)
    (hver : env.verifyMessage ch.publicKey ch.message sig = true) :
    linkNewWallet env db pid sig =
      ({ db with
          challenges := db.challenges.filter fun c => !(c.userId == eu.id)
          users := db.users.map fun u =>
            if u.id = eu.id then { u with socialWallet := some (jsToLower ch.publicKey) }
            else u },
        Except.ok { eu with socialWallet := some (jsToLower ch.publicKey) }) := by
  simp [linkNewWallet, hu, hc, hfresh, hver]

theorem filter_out_then_keep (l : List SigningChallenge) (uid : Nat) :
    (l.filter fun c => !(c.userId == uid)).filter (fun c => c.userId == uid) = [] := by
  induction l with
  | nil => rfl
  | cons a l ih =>
    by_cases ha : a.userId = uid
    · simp [ha, ih]
    · simp [ha, ih]



theorem filter_replace_none (l : List SigningChallenge) (uid : Nat)
    (nc : SigningChallenge) (h : ∀ c ∈ l, c.userId ≠ uid) :
    (l.map fun c => if c.userId = uid then nc else c).filter
        (fun c => c.userId == uid) = [] := by
  induction l with
  | nil => rfl
  | cons a l ih =>
    have ha := h a (List.mem_cons_self a l)
    simp only [List.map_cons, List.filter_cons, if_neg ha]
    simp [ha, ih fun c hc => h c (List.mem_cons_of_mem a hc)]

theorem filter_replace_singleton (l : List SigningChallenge) (uid : Nat)
    (nc : SigningChallenge) (hnc : nc.userId = uid)
    (hp : l.Pairwise fun a b => a.userId ≠ b.userId)
    (old : SigningChallenge)
    (hold : l.find? (fun c => c.userId == uid) = some old) :
    (l.map fun c => if c.userId = uid then nc else c).filter
        (fun c => c.userId == uid) = [nc] := by
  induction l with
  | nil => cases hold
  | cons a l ih =>
    rcases List.pairwise_cons.mp hp with ⟨hhead, htail⟩
    by_cases ha : a.userId = uid
    · have hrest : ∀ c ∈ l, c.userId ≠ uid :=
        fun c hc hcu => (hhead c hc) (ha.trans hcu.symm)
      simp [ha, hnc, filter_replace_none l uid nc hrest]
    · have hfind : l.find? (fun c => c.userId == uid) = some old := by
        rw [List.find?_cons_of_neg] at hold
        · exact hold
        · simp [ha]
      simp [ha, ih htail hfind]


/-!
The claims.
-/


/-- C1: a successful `createUser` atomically creates exactly one new `User`
row referencing the invite code and the lower-cased embedded-wallet address
and bumps that code's `used` counter by exactly 1, while every failing call
leaves the store untouched — neither effect occurs without the other. -/
theorem createUser_transactional (env : Env) (db : DB) (pid ic : String)
    (db' : DB) (r : Except Err User)
    (h : createUser env db pid ic = (db', r)) :
    (∀ e, r = Except.error e → db' = db) ∧
    (∀ u, r = Except.ok u →
      ∃ pu acct c,
        env.getPrivyUser pid = some pu ∧
        pu.linkedAccounts.find? isEmbeddedWallet = some acct ∧
        db.inviteCodes.find? (fun k => k.code == jsTrim ic) = some c ∧
        u.privyUserId = pu.id ∧
        u.invitedById = some c.id ∧
        u.wallet = jsToLower acct.address ∧
        db'.users = db.users ++ [u] ∧
        codeUses db' c.id = (codeUses db c.id).map (fun n => n + 1) ∧
        (∀ j, j ≠ c.id → codeUses db' j = codeUses db j)) := by
  constructor
  · intro e he
    rw [he] at h
    simp only [createUser] at h
    repeat' split at h
    all_goals
      first
        | (injection h with h1 h2; exact h1.symm)
        | (injection h with h1 h2; exact Except.noConfusion h2)
  · intro u hu
    rw [hu] at h
    simp only [createUser] at h
    cases hgp : env.getPrivyUser pid with
    | none => simp [hgp] at h
    | some pu =>
      simp only [hgp] at h
      cases hex : db.users.find? (fun v => v.privyUserId == pid) with
      | some ex => simp [hex] at h
      | none =>
        simp only [hex] at h
        cases hw : pu.linkedAccounts.find? isEmbeddedWallet with
        | none => simp [hw] at h
        | some acct =>
          simp only [hw] at h
          cases hc : db.inviteCodes.find? (fun k => k.code == jsTrim ic) with
          | none => simp [hc] at h
          | some c =>
            simp only [hc] at h
            by_cases hact : c.isActive = false
            · rw [if_pos hact] at h; exact absurd h (by simp)
            · rw [if_neg hact] at h
              by_cases hcap : c.used ≥ c.maxUses
              · rw [if_pos hcap] at h; exact absurd h (by simp)
              · rw [if_neg hcap] at h
                injection h with h1 h2
                injection h2 with h2
                refine ⟨pu, acct, c, rfl, hw, rfl, ?_, ?_, ?_, ?_, ?_, ?_⟩
                · rw [← h2]
                · rw [← h2]
                · rw [← h2]
                · rw [← h1, ← h2]
                · rw [← h1]
                  exact codeUses_bump db.inviteCodes c.id
                · intro j hj
                  rw [← h1]
                  exact codeUses_bump_ne db.inviteCodes c.id j hj


/-- Witness for C1: instantiates the transactional-effects theorem on a
concrete successful registration. -/
theorem createUser_transactional_witness :
    (∀ e, (createUser envBase dbReg "did:privy:alice" " ABC123 ").2 = Except.error e →
        (createUser envBase dbReg "did:privy:alice" " ABC123 ").1 = dbReg) ∧
    (∀ u, (createUser envBase dbReg "did:privy:alice" " ABC123 ").2 = Except.ok u →
      ∃ pu acct c,
        envBase.getPrivyUser "did:privy:alice" = some pu ∧
        pu.linkedAccounts.find? isEmbeddedWallet = some acct ∧
        dbReg.inviteCodes.find? (fun k => k.code == jsTrim " ABC123 ") = some c ∧
        u.privyUserId = pu.id ∧
        u.invitedById = some c.id ∧
        u.wallet = jsToLower acct.address ∧
        (createUser envBase dbReg "did:privy:alice" " ABC123 ").1.users = dbReg.users ++ [u] ∧
        codeUses (createUser envBase dbReg "did:privy:alice" " ABC123 ").1 c.id
          = (codeUses dbReg c.id).map (fun n => n + 1) ∧
        (∀ j, j ≠ c.id →
          codeUses (createUser envBase dbReg "did:privy:alice" " ABC123 ").1 j
            = codeUses dbReg j)) :=
  createUser_transactional envBase dbReg "did:privy:alice" " ABC123 " _ _ rfl


/-- C2: `createUser` validates in a fixed order with fail-fast, first-match-wins
semantics (unresolvable identity, existing user, missing embedded wallet,
absent-or-inactive trimmed invite code, exhausted code), and no error path
writes to the store. -/
theorem createUser_validation_order (env : Env) (db : DB) (pid ic : String) :
    (env.getPrivyUser pid = none →
        createUser env db pid ic = (db, Except.error Err.UNAUTHORIZED)) ∧
    (∀ pu ex, env.getPrivyUser pid = some pu →
        db.users.find? (fun u => u.privyUserId == pid) = some ex →
        createUser env db pid ic = (db, Except.error Err.USER_ALREADY_EXISTS)) ∧
    (∀ pu, env.getPrivyUser pid = some pu →
        db.users.find? (fun u => u.privyUserId == pid) = none →
        pu.linkedAccounts.find? isEmbeddedWallet = none →
        createUser env db pid ic = (db, Except.error Err.WALLET_MISSING)) ∧
    (∀ pu w, env.getPrivyUser pid = some pu →
        db.users.find? (fun u => u.privyUserId == pid) = none →
        pu.linkedAccounts.find? isEmbeddedWallet = some w →
        db.inviteCodes.find? (fun c => c.code == jsTrim ic) = none →
        createUser env db pid ic = (db, Except.error Err.INVALID_INVITE_CODE)) ∧
    (∀ pu w c, env.getPrivyUser pid = some pu →
        db.users.find? (fun u => u.privyUserId == pid) = none →
        pu.linkedAccounts.find? isEmbeddedWallet = some w →
        db.inviteCodes.find? (fun c => c.code == jsTrim ic) = some c →
        c.isActive = false →
        createUser env db pid ic = (db, Except.error Err.INVALID_INVITE_CODE)) ∧
    (∀ pu w c, env.getPrivyUser pid = some pu →
        db.users.find? (fun u => u.privyUserId == pid) = none →
        pu.linkedAccounts.find? isEmbeddedWallet = some w →
        db.inviteCodes.find? (fun c => c.code == jsTrim ic) = some c →
        c.isActive = true →
        c.maxUses ≤ c.used →
        createUser env db pid ic = (db, Except.error Err.CODE_ALREADY_USED)) ∧
    (∀ db' e, createUser env db pid ic = (db', Except.error e) → db' = db) := by
  refine ⟨?_, ?_, ?_, ?_, ?_, ?_, ?_⟩
  · intro h; simp [createUser, h]
  · intro pu ex h1 h2; simp [createUser, h1, h2]
  · intro pu h1 h2 h3; simp [createUser, h1, h2, h3]
  · intro pu w h1 h2 h3 h4; simp [createUser, h1, h2, h3, h4]
  · intro pu w c h1 h2 h3 h4 h5; simp [createUser, h1, h2, h3, h4, h5]
  · intro pu w c h1 h2 h3 h4 h5 h6
    simp [createUser, h1, h2, h3, h4, h5, h6]
  · intro db' e h
    simp only [createUser] at h
    repeat' split at h
    all_goals
      first
        | (injection h with h1 h2; exact h1.symm)
        | (injection h with h1 h2; exact Except.noConfusion h2)

/-- Witness for C2: one concrete instance per validation clause. -/
theorem createUser_validation_order_witness :
    createUser envBase dbReg "nobody" "ABC123" = (dbReg, Except.error Err.UNAUTHORIZED) ∧
    createUser envBase dbAlice "did:privy:alice" "ABC123"
      = (dbAlice, Except.error Err.USER_ALREADY_EXISTS) ∧
    createUser envBase dbReg "did:privy:bob" "ABC123"
      = (dbReg, Except.error Err.WALLET_MISSING) ∧
    createUser envBase dbReg "did:privy:alice" "NOPE"
      = (dbReg, Except.error Err.INVALID_INVITE_CODE) ∧
    createUser envBase dbReg "did:privy:alice" " OFF "
      = (dbReg, Except.error Err.INVALID_INVITE_CODE) ∧
    createUser envBase dbReg "did:privy:alice" "FULL"
      = (dbReg, Except.error Err.CODE_ALREADY_USED) := by
  refine ⟨?_, ?_, ?_, ?_, ?_, ?_⟩
  · exact (createUser_validation_order envBase dbReg "nobody" "ABC123").1 rfl
  · exact (createUser_validation_order envBase dbAlice "did:privy:alice" "ABC123").2.1
      privyAlice userAlice rfl rfl
  · exact (createUser_validation_order envBase dbReg "did:privy:bob" "ABC123").2.2.1
      privyBob rfl rfl rfl
  · exact (createUser_validation_order envBase dbReg "did:privy:alice" "NOPE").2.2.2.1
      privyAlice acctEmbedded rfl rfl rfl rfl
  · exact (createUser_validation_order envBase dbReg "did:privy:alice" " OFF ").2.2.2.2.1
      privyAlice acctEmbedded codeOff rfl rfl rfl rfl rfl
  · exact (createUser_validation_order envBase dbReg "did:privy:alice" "FULL").2.2.2.2.2.1
      privyAlice acctEmbedded codeFull rfl rfl rfl rfl rfl (by decide)


/-- Counterexample for C3 as stated: with the challenge last updated at
epoch 0 and the clock at 930000 ms, the elapsed time (15 minutes 30
seconds) exceeds 15 minutes, yet `linkNewWallet` does not fail with
`CHALLENGE_EXPIRED` — the truncated minute difference is 15, the check
`> 15` is false, the valid signature is accepted and the challenge row is
deleted. -/
theorem linkNewWallet_expiry_boundary_counterexample :
    challAlice.updatedAt = 0 ∧
    envBoundary.now = 930000 ∧
    15 * 60000 < (930000 : Int) - 0 ∧
    (linkNewWallet envBoundary dbLink "did:privy:alice" "0xsig").2
      ≠ Except.error Err.CHALLENGE_EXPIRED ∧
    challengesFor (linkNewWallet envBoundary dbLink "did:privy:alice" "0xsig").1
      userAlice.id = [] := by
  refine ⟨rfl, rfl, by norm_num, ?_, ?_⟩
  · decide
  · decide

/-- C3 (amended): when the elapsed time between now and the challenge's
last-updated timestamp exceeds 15 minutes when truncated to whole minutes
(i.e. is at least 16 full minutes in absolute value), `linkNewWallet`
fails with `CHALLENGE_EXPIRED` and the challenge row still exists
afterward, regardless of whether the supplied signature would have been
valid. -/
theorem linkNewWallet_expired (env : Env) (db : DB) (pid sig : String)
    (eu : User) (ch : SigningChallenge)
    (hu : db.users.find? (fun u => u.privyUserId == pid) = some eu)
    (hc : db.challenges.find? (fun c => c.userId == eu.id) = some ch)
    (hexp : 15 < absDifferenceInMinutes env.now ch.updatedAt) :
    linkNewWallet env db pid sig = (db, Except.error Err.CHALLENGE_EXPIRED) ∧
    ch ∈ (linkNewWallet env db pid sig).1.challenges := by
  have h : linkNewWallet env db pid sig = (db, Except.error Err.CHALLENGE_EXPIRED) := by
    simp [linkNewWallet, hu, hc, hexp]
  refine ⟨h, ?_⟩
  rw [h]
  exact List.mem_of_find?_eq_some hc

/-- Witness for the amended C3: 16 full minutes elapsed, a verifier that
would have accepted the signature, yet the call fails expired and the
challenge row survives. -/
theorem linkNewWallet_expired_witness :
    linkNewWallet envLate dbLink "did:privy:alice" "0xsig"
      = (dbLink, Except.error Err.CHALLENGE_EXPIRED) ∧
    challAlice ∈ (linkNewWallet envLate dbLink "did:privy:alice" "0xsig").1.challenges :=
  linkNewWallet_expired envLate dbLink "did:privy:alice" "0xsig" userAlice challAlice
    rfl rfl (by decide)


/-- C4: when the freshness check passes and the signature verifies against the
stored message and stored candidate address, `linkNewWallet` deletes the
user's challenge and sets the social wallet to the lower-cased candidate
address in one atomic state update, returning the updated user; rows of
other users are untouched. -/
theorem linkNewWallet_success (env : Env) (db : DB) (pid sig : String)
    (eu : User) (ch : SigningChallenge)
    (hu : db.users.find? (fun u => u.privyUserId == pid) = some eu)
    (hc : db.challenges.find? (fun c => c.userId == eu.id) = some ch)
    (hfresh : absDifferenceInMinutes env.now ch.updatedAt ≤ 15)
    (hver : env.verifyMessage ch.publicKey ch.message sig = true) :
    ∃ db', linkNewWallet env db pid sig
        = (db', Except.ok { eu with socialWallet := some (jsToLower ch.publicKey) }) ∧
      challengesFor db' eu.id = [] ∧
      (∀ c ∈ db.challenges, c.userId ≠ eu.id → c ∈ db'.challenges) ∧
      (∀ v ∈ db'.users, v.id = eu.id → v.socialWallet = some (jsToLower ch.publicKey)) ∧
      (∀ v ∈ db.users, v.id ≠ eu.id → v ∈ db'.users) := by
  refine ⟨_, linkNewWallet_ok_aux env db pid sig eu ch hu hc (not_lt.mpr hfresh) hver,
    ?_, ?_, ?_, ?_⟩
  · exact filter_out_then_keep db.challenges eu.id
  · intro c hcm hne
    simp only [List.mem_filter]
    exact ⟨hcm, by simp [hne]⟩
  · intro v hv hid
    rcases List.mem_map.mp hv with ⟨u0, hu0, rfl⟩
    by_cases h0 : u0.id = eu.id
    · simp [h0]
    · rw [if_neg h0] at hid ⊢
      exact absurd hid h0
  · intro v hv hne
    exact List.mem_map.mpr ⟨v, hv, by simp [hne]⟩

/-- Witness for C4: a concrete fresh, correctly signed verification. -/
theorem linkNewWallet_success_witness :
    ∃ db', linkNewWallet envFresh dbLink "did:privy:alice" "0xsig"
        = (db', Except.ok { userAlice with socialWallet := some (jsToLower challAlice.publicKey) }) ∧
      challengesFor db' userAlice.id = [] ∧
      (∀ c ∈ dbLink.challenges, c.userId ≠ userAlice.id → c ∈ db'.challenges) ∧
      (∀ v ∈ db'.users, v.id = userAlice.id →
        v.socialWallet = some (jsToLower challAlice.publicKey)) ∧
      (∀ v ∈ dbLink.users, v.id ≠ userAlice.id → v ∈ db'.users) :=
  linkNewWallet_success envFresh dbLink "did:privy:alice" "0xsig" userAlice challAlice
    rfl rfl (by decide) rfl

/-- C5: a fresh challenge whose signature does not verify against the stored
message and stored candidate address makes `linkNewWallet` fail with
`INVALID_SIGNATURE`, leaving the store — in particular the user's
social-wallet field and the challenge row — unchanged. -/
theorem linkNewWallet_invalid_signature (env : Env) (db : DB) (pid sig : String)
    (eu : User) (ch : SigningChallenge)
    (hu : db.users.find? (fun u => u.privyUserId == pid) = some eu)
    (hc : db.challenges.find? (fun c => c.userId == eu.id) = some ch)
    (hfresh : absDifferenceInMinutes env.now ch.updatedAt ≤ 15)
    (hver : env.verifyMessage ch.publicKey ch.message sig = false) :
    linkNewWallet env db pid sig = (db, Except.error Err.INVALID_SIGNATURE) ∧
    ch ∈ (linkNewWallet env db pid sig).1.challenges ∧
    (∀ v ∈ (linkNewWallet env db pid sig).1.users, v ∈ db.users) := by
  have h : linkNewWallet env db pid sig = (db, Except.error Err.INVALID_SIGNATURE) := by
    simp [linkNewWallet, hu, hc, not_lt.mpr hfresh, hver]
  refine ⟨h, ?_, ?_⟩
  · rw [h]
    exact List.mem_of_find?_eq_some hc
  · rw [h]
    exact fun v hv => hv

/-- Witness for C5: a concrete fresh challenge with a rejected signature. -/
theorem linkNewWallet_invalid_signature_witness :
    linkNewWallet envBadSig dbLink "did:privy:alice" "0xsig"
      = (dbLink, Except.error Err.INVALID_SIGNATURE) ∧
    challAlice ∈ (linkNewWallet envBadSig dbLink "did:privy:alice" "0xsig").1.challenges ∧
    (∀ v ∈ (linkNewWallet envBadSig dbLink "did:privy:alice" "0xsig").1.users,
      v ∈ dbLink.users) :=
  linkNewWallet_invalid_signature envBadSig dbLink "did:privy:alice" "0xsig"
    userAlice challAlice rfl rfl (by decide) rfl

/-- C6: for a user who already has a challenge, `generateChallenge`
overwrites that row's message, candidate address and timestamp instead of
adding a row: the row count is unchanged, the user still has exactly one
challenge — the new one — other users' challenges are untouched, and
one-challenge-per-user is preserved. -/
theorem generateChallenge_upsert (env : Env) (db : DB) (pid pk : String)
    (user : User) (old : SigningChallenge)
    (hu : db.users.find? (fun u => u.privyUserId == pid) = some user)
    (hold : db.challenges.find? (fun c => c.userId == user.id) = some old)
    (hone : db.challenges.Pairwise fun a b => a.userId ≠ b.userId) :
    ∃ db' nc, generateChallenge env db pid pk = (db', Except.ok nc) ∧
      nc.userId = user.id ∧
      nc.publicKey = pk ∧
      nc.message = challengeMessage env.now pk ∧
      nc.updatedAt = env.now ∧
      db'.challenges.length = db.challenges.length ∧
      challengesFor db' user.id = [nc] ∧
      (∀ c ∈ db.challenges, c.userId ≠ user.id → c ∈ db'.challenges) ∧
      db'.challenges.Pairwise (fun a b => a.userId ≠ b.userId) := by
  simp only [generateChallenge, hu, hold]
  refine ⟨_, _, rfl, rfl, rfl, rfl, rfl, ?_, ?_, ?_, ?_⟩
  · exact List.length_map db.challenges _
  · exact filter_replace_singleton db.challenges user.id _ rfl hone old hold
  · intro c hcm hne
    exact List.mem_map.mpr ⟨c, hcm, by simp [hne]⟩
  · rw [List.pairwise_map]
    refine hone.imp ?_
    intro a b hab
    by_cases ha : a.userId = user.id <;> by_cases hb : b.userId = user.id <;>
      simp_all

/-- Witness for C6: re-issuing a challenge for the concrete user who already
holds one. -/
theorem generateChallenge_upsert_witness :
    ∃ db' nc, generateChallenge envFresh dbLink "did:privy:alice" "0xNEW"
        = (db', Except.ok nc) ∧
      nc.userId = userAlice.id ∧
      nc.publicKey = "0xNEW" ∧
      nc.message = challengeMessage envFresh.now "0xNEW" ∧
      nc.updatedAt = envFresh.now ∧
      db'.challenges.length = dbLink.challenges.length ∧
      challengesFor db' userAlice.id = [nc] ∧
      (∀ c ∈ dbLink.challenges, c.userId ≠ userAlice.id → c ∈ db'.challenges) ∧
      db'.challenges.Pairwise (fun a b => a.userId ≠ b.userId) :=
  generateChallenge_upsert envFresh dbLink "did:privy:alice" "0xNEW" userAlice challAlice
    rfl rfl (by simp [dbLink])



/-- C7: a registration attempt that reaches the cap check on a code with
`used = maxUses` fails with `CODE_ALREADY_USED` and leaves the store — in
particular the counter — unchanged; and registration preserves the
invariant `used ≤ maxUses` on every invite-code row of a store whose rows
have distinct primary keys. -/
theorem createUser_cap_enforced (env : Env) (db : DB) (pid ic : String)
    (pu : PrivyUser) (w : LinkedAccount) (c : InviteCode)
    (h1 : env.getPrivyUser pid = some pu)
    (h2 : db.users.find? (fun u => u.privyUserId == pid) = none)
    (h3 : pu.linkedAccounts.find? isEmbeddedWallet = some w)
    (h4 : db.inviteCodes.find? (fun k => k.code == jsTrim ic) = some c)
    (h5 : c.isActive = true)
    (h6 : c.used = c.maxUses) :
    createUser env db pid ic = (db, Except.error Err.CODE_ALREADY_USED) ∧
    ∀ (env2 : Env) (db2 : DB) (p i : String),
      db2.inviteCodes.Pairwise (fun a b => a.id ≠ b.id) →
      (∀ k ∈ db2.inviteCodes, k.used ≤ k.maxUses) →
      ∀ k ∈ (createUser env2 db2 p i).1.inviteCodes, k.used ≤ k.maxUses := by
  constructor
  · simp [createUser, h1, h2, h3, h4, h5, h6]
  · intro env2 db2 p i hpw hinv k hk
    simp only [createUser] at hk
    cases hgp2 : env2.getPrivyUser p with
    | none => simp only [hgp2] at hk; exact hinv k hk
    | some pu2 =>
      simp only [hgp2] at hk
      cases hex2 : db2.users.find? (fun v => v.privyUserId == p) with
      | some ex2 => simp only [hex2] at hk; exact hinv k hk
      | none =>
        simp only [hex2] at hk
        cases hw2 : pu2.linkedAccounts.find? isEmbeddedWallet with
        | none => simp only [hw2] at hk; exact hinv k hk
        | some w2 =>
          simp only [hw2] at hk
          cases hc2 : db2.inviteCodes.find? (fun k2 => k2.code == jsTrim i) with
          | none => simp only [hc2] at hk; exact hinv k hk
          | some c2 =>
            simp only [hc2] at hk
            by_cases hact2 : c2.isActive = false
            · rw [if_pos hact2] at hk; exact hinv k hk
            · rw [if_neg hact2] at hk
              by_cases hcap2 : c2.used ≥ c2.maxUses
              · rw [if_pos hcap2] at hk; exact hinv k hk
              · rw [if_neg hcap2] at hk
                simp only [List.mem_map] at hk
                rcases hk with ⟨k0, hk0, rfl⟩
                by_cases hid : k0.id = c2.id
                · have hk0eq : k0 = c2 :=
                    eq_of_mem_pairwise_key InviteCode.id hpw hk0
                      (List.mem_of_find?_eq_some hc2) hid
                  rw [if_pos hid]
                  show k0.used + 1 ≤ k0.maxUses
                  rw [hk0eq]
                  omega
                · simp only [if_neg hid]
                  exact hinv k0 hk0

/-- Witness for C7: the concrete exhausted code `FULL` is rejected with the
counter untouched, and the concrete successful registration keeps all
counters within their caps. -/
theorem createUser_cap_enforced_witness :
    createUser envBase dbReg "did:privy:alice" " FULL "
      = (dbReg, Except.error Err.CODE_ALREADY_USED) ∧
    (∀ k ∈ (createUser envBase dbReg "did:privy:alice" "ABC123").1.inviteCodes,
      k.used ≤ k.maxUses) := by
  have h := createUser_cap_enforced envBase dbReg "did:privy:alice" " FULL "
    privyAlice acctEmbedded codeFull rfl rfl rfl rfl rfl rfl
  exact ⟨h.1, h.2 envBase dbReg "did:privy:alice" "ABC123" (by decide) (by decide)⟩


/-- C8: once the challenge deletion and the social-wallet update have been
computed, the outcome of the downstream profile-refresh and recommendation
side effects has no bearing on the result: swapping in arbitrary (also
failing) side-effect functions yields the identical post-state and the
same returned user with the wallet linked and the challenge gone. -/
theorem linkNewWallet_side_effects_isolated (env : Env) (db : DB) (pid sig : String)
    (eu : User) (ch : SigningChallenge)
    (f : Nat → String → Except String Unit) (g : String → Except String Unit)
    (hu : db.users.find? (fun u => u.privyUserId == pid) = some eu)
    (hc : db.challenges.find? (fun c => c.userId == eu.id) = some ch)
    (hfresh : absDifferenceInMinutes env.now ch.updatedAt ≤ 15)
    (hver : env.verifyMessage ch.publicKey ch.message sig = true) :
    linkNewWallet { env with updateUserSocialProfiles := f, updateRecommendations := g }
        db pid sig
      = linkNewWallet env db pid sig ∧
    ∃ db', linkNewWallet { env with updateUserSocialProfiles := f, updateRecommendations := g }
          db pid sig
        = (db', Except.ok { eu with socialWallet := some (jsToLower ch.publicKey) }) ∧
      challengesFor db' eu.id = [] ∧
      (∀ v ∈ db'.users, v.id = eu.id → v.socialWallet = some (jsToLower ch.publicKey)) := by
  have heq : linkNewWallet { env with updateUserSocialProfiles := f, updateRecommendations := g }
      db pid sig = linkNewWallet env db pid sig := rfl
  refine ⟨heq, _,
    heq.trans (linkNewWallet_ok_aux env db pid sig eu ch hu hc (not_lt.mpr hfresh) hver),
    ?_, ?_⟩
  · exact filter_out_then_keep db.challenges eu.id
  · intro v hv hid
    rcases List.mem_map.mp hv with ⟨u0, hu0, rfl⟩
    by_cases h0 : u0.id = eu.id
    · simp [h0]
    · rw [if_neg h0] at hid ⊢
      exact absurd hid h0

/-- Witness for C8: both side effects throw, yet the concrete call still
returns the linked user and the committed post-state. -/
theorem linkNewWallet_side_effects_isolated_witness :
    linkNewWallet envSideFail dbLink "did:privy:alice" "0xsig"
      = linkNewWallet envFresh dbLink "did:privy:alice" "0xsig" ∧
    ∃ db', linkNewWallet envSideFail dbLink "did:privy:alice" "0xsig"
        = (db', Except.ok { userAlice with socialWallet := some (jsToLower challAlice.publicKey) }) ∧
      challengesFor db' userAlice.id = [] ∧
      (∀ v ∈ db'.users, v.id = userAlice.id →
        v.socialWallet = some (jsToLower challAlice.publicKey)) :=
  linkNewWallet_side_effects_isolated envFresh dbLink "did:privy:alice" "0xsig"
    userAlice challAlice (fun _ _ => Except.error "boom") (fun _ => Except.error "boom")
    rfl rfl (by decide) rfl

/-- C9: `checkUsersExist` returns exactly the stored users whose
`socialWallet` equals one of the lower-cased input addresses, and an input
address whose lower-cased form matches no user's `socialWallet` contributes
nothing to the result. -/
theorem checkUsersExist_subset_spec (db : DB) (ws : List String) :
    (∀ u, u ∈ checkUsersExist db ws ↔
      u ∈ db.users ∧ ∃ s, u.socialWallet = some s ∧ s ∈ ws.map jsToLower) ∧
    (∀ a, (∀ u ∈ db.users, u.socialWallet ≠ some (jsToLower a)) →
      checkUsersExist db (a :: ws) = checkUsersExist db ws) := by
  constructor
  · intro u
    cases hsw : u.socialWallet with
    | none => simp [checkUsersExist, List.mem_filter, hsw]
    | some sw => simp [checkUsersExist, List.mem_filter, hsw]
  · intro a ha
    simp only [checkUsersExist, List.map_cons]
    apply List.filter_congr
    intro u hu
    cases hsw : u.socialWallet with
    | none => simp [hsw]
    | some sw =>
      have hne : sw ≠ jsToLower a := fun hcon => ha u hu (by rw [hsw, hcon])
      simp [hsw, List.contains_cons, hne]

/-- Witness for C9: only the address whose lower-cased form is a stored
social wallet is reflected in the result; the unmatched one is inert. -/
theorem checkUsersExist_subset_spec_witness :
    (∀ u, u ∈ checkUsersExist dbSocial ["0xAAA", "0xCCC"] ↔
      u ∈ dbSocial.users ∧
        ∃ s, u.socialWallet = some s ∧
          s ∈ (["0xAAA", "0xCCC"] : List String).map jsToLower) ∧
    checkUsersExist dbSocial ("0xCCC" :: ["0xAAA"]) = checkUsersExist dbSocial ["0xAAA"] :=
  ⟨(checkUsersExist_subset_spec dbSocial ["0xAAA", "0xCCC"]).1,
    (checkUsersExist_subset_spec dbSocial ["0xAAA"]).2 "0xCCC" (by decide)⟩

/-- C10: `generateChallenge` persists the candidate address exactly as
supplied (no lower-casing), `linkNewWallet` verifies the signature against
that stored, unnormalized address, and lower-casing happens only in the
social-wallet write after successful verification. -/
theorem challenge_key_unnormalized (env : Env) (db : DB) (pid pk sig : String) :
    (∀ user, db.users.find? (fun u => u.privyUserId == pid) = some user →
      ∃ db' c, generateChallenge env db pid pk = (db', Except.ok c) ∧
        c.publicKey = pk ∧ c ∈ db'.challenges) ∧
    (∀ eu ch, db.users.find? (fun u => u.privyUserId == pid) = some eu →
      db.challenges.find? (fun c => c.userId == eu.id) = some ch →
      absDifferenceInMinutes env.now ch.updatedAt ≤ 15 →
      (env.verifyMessage ch.publicKey ch.message sig = false →
        linkNewWallet env db pid sig = (db, Except.error Err.INVALID_SIGNATURE)) ∧
      (env.verifyMessage ch.publicKey ch.message sig = true →
        (linkNewWallet env db pid sig).2
          = Except.ok { eu with socialWallet := some (jsToLower ch.publicKey) })) := by
  constructor
  · intro user huser
    simp only [generateChallenge, huser]
    cases hch : db.challenges.find? (fun c => c.userId == user.id) with
    | some old =>
      simp only [hch]
      refine ⟨_, _, rfl, rfl, ?_⟩
      have holdeq : old.userId = user.id := by simpa using List.find?_some hch
      exact List.mem_map.mpr ⟨old, List.mem_of_find?_eq_some hch, by simp [holdeq]⟩
    | none =>
      simp only [hch]
      refine ⟨_, _, rfl, rfl, ?_⟩
      simp
  · intro eu ch hu hc hfresh
    constructor
    · intro hver
      simp [linkNewWallet, hu, hc, not_lt.mpr hfresh, hver]
    · intro hver
      rw [linkNewWallet_ok_aux env db pid sig eu ch hu hc (not_lt.mpr hfresh) hver]

/-- Witness for C10: the stored key keeps its upper-case letters; a verifier
accepting only the lower-cased form is never consulted with it, so linking
fails with `INVALID_SIGNATURE`; with an accepting verifier the social
wallet is written lower-cased. -/
theorem challenge_key_unnormalized_witness :
    (∃ db' c, generateChallenge envFresh dbLink "did:privy:alice" "0xNeWKeY"
        = (db', Except.ok c) ∧ c.publicKey = "0xNeWKeY" ∧ c ∈ db'.challenges) ∧
    linkNewWallet envLowerOnly dbLink "did:privy:alice" "0xsig"
      = (dbLink, Except.error Err.INVALID_SIGNATURE) ∧
    (linkNewWallet envFresh dbLink "did:privy:alice" "0xsig").2
      = Except.ok { userAlice with socialWallet := some (jsToLower challAlice.publicKey) } := by
  refine ⟨?_, ?_, ?_⟩
  · exact (challenge_key_unnormalized envFresh dbLink "did:privy:alice" "0xNeWKeY" "0xsig").1
      userAlice rfl
  · exact ((challenge_key_unnormalized envLowerOnly dbLink "did:privy:alice" "0xNeWKeY" "0xsig").2
      userAlice challAlice rfl rfl (by decide)).1 rfl
  · exact ((challenge_key_unnormalized envFresh dbLink "did:privy:alice" "0xNeWKeY" "0xsig").2
      userAlice challAlice rfl rfl (by decide)).2 rfl

end BuidlerFi
